import Mathlib

/-!
Verification of the fastnum scalar adapters (src/types/external/fastnum.rs).

The file shallowly embeds the four GraphQL scalar adapters for the fastnum
numeric types: `Decimal` (signed decimal), `UnsignedDecimal`, `Int`
(signed integer, modelled by Lean `Int`) and `UInt` (unsigned integer,
modelled by `Nat`).  The adapter bodies (`parse`, `to_value`) are
translated directly from the Rust source.  The external collaborators —
the GraphQL `Value` type with its `as_i64`/`as_u64`/`as_f64` extraction
helpers, and the fastnum library's string parser/formatter and numeric
conversions — are not part of this repository; they are modelled from the
specification: extractions are lossless-or-none, and the textual rendering
is the canonical positional decimal form that round-trips through parsing.
-/

/-! ## Digit and character primitives -/

/-- Turns a decimal digit (0..9) into its ASCII character. -/
def digitToChar (d : Nat) : Char := Char.ofNat (48 + d)

/-- Reads an ASCII decimal digit character back to its value; any
non-digit character yields `none`. -/
def charToDigit (c : Char) : Option Nat :=
  if 48 ≤ c.toNat ∧ c.toNat ≤ 57 then some (c.toNat - 48) else none

/-- Little-endian base-10 digits, fuel-based so that it is structurally
recursive and evaluates inside the kernel. -/
def digitsAux : Nat → Nat → List Nat
  | 0, _ => []
  | fuel + 1, n => if n = 0 then [] else n % 10 :: digitsAux fuel (n / 10)

/-- Little-endian base-10 digits of a natural number (empty for 0). -/
def natDigits (n : Nat) : List Nat := digitsAux n n

/-- Value of a little-endian digit list. -/
def ofDigits : List Nat → Nat
  | [] => 0
  | d :: ds => d + 10 * ofDigits ds

/-- Big-endian digit list used for printing; `[0]` for zero. -/
def natDigitsBE (n : Nat) : List Nat :=
  if n = 0 then [0] else (natDigits n).reverse

/-- Canonical base-10 rendering of a natural number as characters. -/
def natToChars (n : Nat) : List Char := (natDigitsBE n).map digitToChar

/-- Reads a list of characters as decimal digits; fails on any
non-digit. -/
def parseDigitList : List Char → Option (List Nat)
  | [] => some []
  | c :: cs =>
    match charToDigit c with
    | none => none
    | some d =>
      match parseDigitList cs with
      | none => none
      | some ds => some (d :: ds)

/-- Reads a nonempty all-digit character list as a natural number. -/
def parseNatChars (cs : List Char) : Option Nat :=
  if cs.isEmpty then none
  else
    match parseDigitList cs with
    | some ds => some (ofDigits ds.reverse)
    | none => none

/-- Splits a character list at the first dot: returns the prefix and,
when a dot is present, the remainder after it. -/
def splitDot : List Char → List Char × Option (List Char)
  | [] => ([], none)
  | c :: cs =>
    if c = '.' then ([], some cs)
    else
      let r := splitDot cs
      (c :: r.1, r.2)

/-! ## Internal numeric values (modelled from the spec)

fastnum's `Decimal<N>` / `UnsignedDecimal<N>` are arbitrary-precision
decimals; a value is modelled as a sign, an integer part and a list of
fractional digits.  The precision envelope N is not modelled: every claim
under verification is independent of the precision ceiling, and the spec
notes the decimal types have no fixed integer ceiling other than the
context's precision. -/

/-- Modelled from the spec: a signed arbitrary-precision decimal value
(fastnum `Decimal<N>`): sign, integer part, fractional digits. -/
structure Decimal where
  neg : Bool
  ip : Nat
  frac : List Nat
deriving DecidableEq, Repr

/-- Modelled from the spec: an unsigned arbitrary-precision decimal value
(fastnum `UnsignedDecimal<N>`). -/
structure UnsignedDecimal where
  ip : Nat
  frac : List Nat
deriving DecidableEq, Repr

/-- A decimal value is representable when each stored fractional digit is
an actual base-10 digit. -/
def Decimal.Valid (v : Decimal) : Prop := ∀ d ∈ v.frac, d < 10

/-- Representability for unsigned decimal values. -/
def UnsignedDecimal.Valid (v : UnsignedDecimal) : Prop := ∀ d ∈ v.frac, d < 10

/-! ## External values (modelled from the spec) -/

/-- Modelled from the spec: a 64-bit float as seen by the adapters.  A
finite double is exactly representable as a decimal number, so the finite
case carries its exact decimal expansion; the non-finite cases are kept
symbolic. -/
inductive F64 where
  | finite (d : Decimal)
  | nan
  | inf
  | negInf
deriving DecidableEq, Repr

/-- Whether a float value is finite. -/
def F64.isFinite : F64 → Bool
  | .finite _ => true
  | _ => false

/-- Modelled from the spec: the external number representation, backed by
one of an unsigned 64-bit integer, a (strictly) negative 64-bit integer,
or a 64-bit float.  `negInt m` denotes the value `-(m+1)`. -/
inductive Number where
  | posInt (n : Nat)
  | negInt (m : Nat)
  | float (f : F64)
deriving DecidableEq, Repr

/-- Modelled from the spec: lossless-or-none extraction of a signed
64-bit integer. -/
def Number.as_i64 : Number → Option Int
  | .posInt n => if n < 2 ^ 63 then some (n : Int) else none
  | .negInt m => some (-(m + 1 : Int))
  | .float _ => none

/-- Modelled from the spec: lossless-or-none extraction of an unsigned
64-bit integer; negative numbers have none. -/
def Number.as_u64 : Number → Option Nat
  | .posInt n => some n
  | .negInt _ => none
  | .float _ => none

/-- Modelled from the spec: lossless-or-none extraction of a 64-bit
float; integer-backed numbers expose the integer extractions instead. -/
def Number.as_f64 : Number → Option F64
  | .posInt _ => none
  | .negInt _ => none
  | .float f => some f

/-- Modelled from the spec: the external GraphQL value, a closed variant
over strings, numbers and the other (non-numeric) shapes.  The contents
of lists and objects are irrelevant to the adapters and are not
modelled. -/
inductive Value where
  | string (s : String)
  | number (n : Number)
  | boolean (b : Bool)
  | null
  | list
  | object
deriving DecidableEq, Repr

/-- Shapes that are neither a string nor a number. -/
def Value.isOtherShape : Value → Prop
  | .string _ => False
  | .number _ => False
  | _ => True

/-- The two failure kinds of the conversion layer: `unexpectedShape`
carries the offending external value (`InputValueError::expected_type`),
`conversionFailure` stands for a wrapped numeric-library diagnostic
(`?` on a parse error, or `InputValueError::custom`). -/
inductive Err where
  | unexpectedShape (v : Value)
  | conversionFailure
deriving DecidableEq, Repr

deriving instance DecidableEq for Except

/-! ## Numeric library primitives (modelled from the spec) -/

/-- Decimal value of a signed integer. -/
def Decimal.ofInt (i : Int) : Decimal := ⟨i < 0, i.natAbs, []⟩

/-- Decimal value of an unsigned integer. -/
def Decimal.ofNat (n : Nat) : Decimal := ⟨false, n, []⟩

/-- Canonical character rendering of a decimal value: optional minus
sign, integer part, then a dot and the fractional digits when any. -/
def decToChars (v : Decimal) : List Char :=
  (if v.neg then ['-'] else []) ++ natToChars v.ip ++
    (if v.frac.isEmpty then [] else '.' :: v.frac.map digitToChar)

/-- Modelled from the spec: fastnum's canonical string formatter for
signed decimals. -/
def Decimal.to_string (v : Decimal) : String := ⟨decToChars v⟩

/-- Modelled from the spec: fastnum's canonical string formatter for
unsigned decimals. -/
def UnsignedDecimal.to_string (v : UnsignedDecimal) : String :=
  ⟨decToChars ⟨false, v.ip, v.frac⟩⟩

/-- Parses an unsigned decimal body (integer digits, optionally a dot and
nonempty fractional digits) with a given sign. -/
def decFromBody (neg : Bool) (body : List Char) : Option Decimal :=
  match splitDot body with
  | (ipChars, none) =>
    match parseNatChars ipChars with
    | some n => some ⟨neg, n, []⟩
    | none => none
  | (ipChars, some fChars) =>
    if fChars.isEmpty then none
    else
      match parseNatChars ipChars, parseDigitList fChars with
      | some n, some fs => some ⟨neg, n, fs⟩
      | _, _ => none

/-- Modelled from the spec: fastnum's canonical decimal parser over
characters (optional leading minus sign, then digits, optionally a dot
and fractional digits). -/
def decFromChars : List Char → Option Decimal
  | [] => none
  | c :: rest =>
    if c = '-' then decFromBody true rest else decFromBody false (c :: rest)

/-- Modelled from the spec: fastnum `Decimal::from_str` under the default
context; a malformed numeral is a `conversionFailure`. -/
def Decimal.from_str (s : String) : Except Err Decimal :=
  match decFromChars s.data with
  | some d => .ok d
  | none => .error .conversionFailure

/-- Modelled from the spec: fastnum `UnsignedDecimal::from_str`; the
delegated parser enforces non-negativity internally, so a negative
numeral is a `conversionFailure`. -/
def UnsignedDecimal.from_str (s : String) : Except Err UnsignedDecimal :=
  match decFromChars s.data with
  | some d => if d.neg then .error .conversionFailure else .ok ⟨d.ip, d.frac⟩
  | none => .error .conversionFailure

/-- Modelled from the spec: fastnum `Decimal::try_from(f64)`; fails
exactly on non-finite values. -/
def Decimal.tryFromF64 : F64 → Except Err Decimal
  | .finite d => .ok d
  | _ => .error .conversionFailure

/-- Modelled from the spec: fastnum `UnsignedDecimal::try_from(f64)`;
fails on non-finite or negative values. -/
def UnsignedDecimal.tryFromF64 : F64 → Except Err UnsignedDecimal
  | .finite d => if d.neg then .error .conversionFailure else .ok ⟨d.ip, d.frac⟩
  | _ => .error .conversionFailure

/-- Canonical character rendering of a signed integer. -/
def intToChars (i : Int) : List Char :=
  if i < 0 then '-' :: natToChars i.natAbs else natToChars i.natAbs

/-- Modelled from the spec: fastnum `Int::from_str_radix(s, 10)` over
characters — an optional leading minus sign followed by one or more
base-10 digits; anything else fails.  The repository's own test shows a
leading minus sign is accepted ("-100" parses). -/
def intFromChars : List Char → Option Int
  | [] => none
  | c :: rest =>
    if c = '-' then
      match parseNatChars rest with
      | some n => some (-(n : Int))
      | none => none
    else
      match parseNatChars (c :: rest) with
      | some n => some (n : Int)
      | none => none

/-- Modelled from the spec: fastnum `UInt::from_str_radix(s, 10)` over
characters — one or more base-10 digits, no sign. -/
def uintFromChars (cs : List Char) : Option Nat := parseNatChars cs

/-- Modelled from the spec: widening of an unsigned 64-bit integer into
fastnum `Int<N>`; the precision ceiling is not modelled, so the model
always succeeds. -/
def intTryFromU64 (u : Nat) : Except Err Int := .ok (u : Int)

/-- Modelled from the spec: fallible conversion of a signed 64-bit
integer into fastnum `UInt<N>`; fails on negative values. -/
def uintTryFromI64 (i : Int) : Except Err Nat :=
  if i < 0 then .error .conversionFailure else .ok i.toNat

/-! ## The four scalar adapters (translated from the source) -/

namespace DecimalScalar

/-- Number branch of the signed Decimal adapter, abstracted over the
three extraction results; `none` models the panic of the unchecked
`unwrap` when every extraction is exhausted. -/
def parseNumber (_orig : Value) (fOpt : Option F64) (iOpt : Option Int)
    (uOpt : Option Nat) : Option (Except Err Decimal) :=
  match fOpt with
  | some f => some (Decimal.tryFromF64 f)
  | none =>
    match iOpt with
    | some i => some (.ok (Decimal.ofInt i))
    | none =>
      match uOpt with
      | some u => some (.ok (Decimal.ofNat u))
      | none => none

/-- `ScalarType::parse` for `Decimal<N>`; `none` models a panic. -/
def parse (value : Value) : Option (Except Err Decimal) :=
  match value with
  | .string s => some (Decimal.from_str s)
  | .number n => parseNumber value n.as_f64 n.as_i64 n.as_u64
  | _ => some (.error (.unexpectedShape value))

/-- `ScalarType::to_value` for `Decimal<N>`. -/
def to_value (v : Decimal) : Value := .string v.to_string

end DecimalScalar

namespace UnsignedDecimalScalar

/-- Number branch of the UnsignedDecimal adapter: float extraction
first, then unsigned 64-bit, otherwise an `unexpectedShape` failure. -/
def parseNumber (orig : Value) (fOpt : Option F64) (uOpt : Option Nat) :
    Except Err UnsignedDecimal :=
  match fOpt with
  | some f => UnsignedDecimal.tryFromF64 f
  | none =>
    match uOpt with
    | some u => .ok ⟨u, []⟩
    | none => .error (.unexpectedShape orig)

/-- `ScalarType::parse` for `UnsignedDecimal<N>`. -/
def parse (value : Value) : Except Err UnsignedDecimal :=
  match value with
  | .string s => UnsignedDecimal.from_str s
  | .number n => parseNumber value n.as_f64 n.as_u64
  | _ => .error (.unexpectedShape value)

/-- `ScalarType::to_value` for `UnsignedDecimal<N>`. -/
def to_value (v : UnsignedDecimal) : Value := .string v.to_string

end UnsignedDecimalScalar

namespace IntScalar

/-- Number branch of the signed Integer adapter: signed 64-bit extraction
first, then a fallible widen of the unsigned one, otherwise (a
non-integral float) an `unexpectedShape` failure. -/
def parseNumber (orig : Value) (iOpt : Option Int) (uOpt : Option Nat) :
    Except Err Int :=
  match iOpt with
  | some i => .ok i
  | none =>
    match uOpt with
    | some u => intTryFromU64 u
    | none => .error (.unexpectedShape orig)

/-- `ScalarType::parse` for `Int<N>`. -/
def parse (value : Value) : Except Err Int :=
  match value with
  | .number n => parseNumber value n.as_i64 n.as_u64
  | .string s =>
    match intFromChars s.data with
    | some i => .ok i
    | none => .error .conversionFailure
  | _ => .error (.unexpectedShape value)

/-- `ScalarType::to_value` for `Int<N>`. -/
def to_value (i : Int) : Value := .string ⟨intToChars i⟩

end IntScalar

namespace UIntScalar

/-- Number branch of the UnsignedInteger adapter: fallible conversion of
the signed 64-bit extraction first, then the unsigned one, otherwise (a
non-integral float) an `unexpectedShape` failure. -/
def parseNumber (orig : Value) (iOpt : Option Int) (uOpt : Option Nat) :
    Except Err Nat :=
  match iOpt with
  | some i => uintTryFromI64 i
  | none =>
    match uOpt with
    | some u => .ok u
    | none => .error (.unexpectedShape orig)

/-- `ScalarType::parse` for `UInt<N>`. -/
def parse (value : Value) : Except Err Nat :=
  match value with
  | .number n => parseNumber value n.as_i64 n.as_u64
  | .string s =>
    match uintFromChars s.data with
    | some u => .ok u
    | none => .error .conversionFailure
  | _ => .error (.unexpectedShape value)

/-- `ScalarType::to_value` for `UInt<N>`. -/
def to_value (n : Nat) : Value := .string ⟨natToChars n⟩

end UIntScalar

/-! ## Shapes of numeral strings used in the claims -/

/-- A negative whole-number numeral string: a minus sign followed by the
given digits. -/
def negWholeStr (ds : List Nat) : String := ⟨'-' :: ds.map digitToChar⟩

/-- A negative fractional numeral string: a minus sign, integer digits, a
dot, fractional digits. -/
def negFracStr (ds fs : List Nat) : String :=
  ⟨'-' :: (ds.map digitToChar ++ '.' :: fs.map digitToChar)⟩

/-- A non-negative fractional numeral string: integer digits, a dot,
fractional digits. -/
def fracStr (ds fs : List Nat) : String :=
  ⟨ds.map digitToChar ++ '.' :: fs.map digitToChar⟩

/-- Whether a character list is an (optionally negated) base-10
whole-number numeral: an optional leading minus sign followed by one or
more digits. -/
def isIntNumeral (cs : List Char) : Bool :=
  match cs with
  | [] => false
  | c :: rest =>
    if c = '-' then !rest.isEmpty && rest.all fun x => (charToDigit x).isSome
    else (c :: rest).all fun x => (charToDigit x).isSome

/-! ## Digit-level lemmas -/

theorem charToDigit_digitToChar {d : Nat} (h : d < 10) :
    charToDigit (digitToChar d) = some d := by
  interval_cases d <;> decide

theorem digitToChar_ne_minus {d : Nat} (h : d < 10) : digitToChar d ≠ '-' := by
  interval_cases d <;> decide

theorem digitToChar_ne_dot {d : Nat} (h : d < 10) : digitToChar d ≠ '.' := by
  interval_cases d <;> decide

theorem parseDigitList_map {ds : List Nat} (h : ∀ d ∈ ds, d < 10) :
    parseDigitList (ds.map digitToChar) = some ds := by
  induction ds with
  | nil => rfl
  | cons d ds ih =>
    simp only [List.map_cons, parseDigitList]
    rw [charToDigit_digitToChar (h d (by simp))]
    rw [ih (fun x hx => h x (by simp [hx]))]

theorem parseNatChars_map {ds : List Nat} (hne : ds ≠ []) (h : ∀ d ∈ ds, d < 10) :
    parseNatChars (ds.map digitToChar) = some (ofDigits ds.reverse) := by
  unfold parseNatChars
  rw [parseDigitList_map h]
  cases ds with
  | nil => exact absurd rfl hne
  | cons d ds => simp

theorem parseDigitList_none_of_mem {cs : List Char} {c : Char} (hm : c ∈ cs)
    (hc : charToDigit c = none) : parseDigitList cs = none := by
  induction cs with
  | nil => simp at hm
  | cons x xs ih =>
    rcases List.mem_cons.1 hm with h | h
    · subst h
      simp [parseDigitList, hc]
    · simp only [parseDigitList]
      rw [ih h]
      cases charToDigit x <;> rfl

theorem parseDigitList_isSome (cs : List Char) :
    (parseDigitList cs).isSome = cs.all fun c => (charToDigit c).isSome := by
  induction cs with
  | nil => rfl
  | cons c cs ih =>
    simp only [parseDigitList, List.all_cons]
    cases hc : charToDigit c with
    | none => simp [hc]
    | some d =>
      cases hd : parseDigitList cs with
      | none => simp [hd, ← ih]
      | some ds => simp [hd, ← ih]

theorem parseNatChars_none_of_mem {cs : List Char} {c : Char} (hm : c ∈ cs)
    (hc : charToDigit c = none) : parseNatChars cs = none := by
  unfold parseNatChars
  rw [parseDigitList_none_of_mem hm hc]
  simp

theorem parseNatChars_isSome_of {cs : List Char} (hne : cs ≠ [])
    (h : ∀ c ∈ cs, (charToDigit c).isSome) : (parseNatChars cs).isSome := by
  unfold parseNatChars
  rw [if_neg (by simpa using hne)]
  cases hd : parseDigitList cs with
  | none =>
    exfalso
    have hall : cs.all (fun c => (charToDigit c).isSome) = true := List.all_eq_true.2 h
    have hps := parseDigitList_isSome cs
    rw [hd, hall] at hps
    simp at hps
  | some ds => rfl

/-! ## Number-printing lemmas -/

theorem ofDigits_digitsAux : ∀ fuel n, n ≤ fuel → ofDigits (digitsAux fuel n) = n := by
  intro fuel
  induction fuel with
  | zero => intro n hn; interval_cases n; rfl
  | succ fuel ih =>
    intro n hn
    by_cases h0 : n = 0
    · subst h0; simp [digitsAux, ofDigits]
    · have hdiv : n / 10 ≤ fuel := by
        have : n / 10 < n := Nat.div_lt_self (Nat.pos_of_ne_zero h0) (by norm_num)
        omega
      simp only [digitsAux, if_neg h0, ofDigits]
      rw [ih _ hdiv]
      omega

theorem digitsAux_lt : ∀ fuel n d, d ∈ digitsAux fuel n → d < 10 := by
  intro fuel
  induction fuel with
  | zero => intro n d hd; simp [digitsAux] at hd
  | succ fuel ih =>
    intro n d hd
    by_cases h0 : n = 0
    · rw [h0] at hd; simp [digitsAux] at hd
    · simp only [digitsAux, if_neg h0, List.mem_cons] at hd
      rcases hd with h | h
      · exact h ▸ Nat.mod_lt _ (by norm_num)
      · exact ih _ _ h

theorem digitsAux_ne_nil {fuel n : Nat} (h0 : n ≠ 0) (hn : n ≤ fuel) :
    digitsAux fuel n ≠ [] := by
  cases fuel with
  | zero => omega
  | succ fuel => simp [digitsAux, if_neg h0]

theorem natDigitsBE_ne_nil (n : Nat) : natDigitsBE n ≠ [] := by
  unfold natDigitsBE
  by_cases h : n = 0
  · simp [h]
  · simp only [if_neg h, ne_eq, List.reverse_eq_nil_iff]
    exact digitsAux_ne_nil h (le_refl n)

theorem natDigitsBE_lt (n : Nat) : ∀ d ∈ natDigitsBE n, d < 10 := by
  intro d hd
  unfold natDigitsBE at hd
  by_cases h : n = 0
  · simp [h] at hd; omega
  · simp only [if_neg h, List.mem_reverse] at hd
    exact digitsAux_lt _ _ _ hd

theorem ofDigits_natDigitsBE (n : Nat) : ofDigits (natDigitsBE n).reverse = n := by
  unfold natDigitsBE
  by_cases h : n = 0
  · subst h; rfl
  · simp only [if_neg h, List.reverse_reverse]
    exact ofDigits_digitsAux n n (le_refl n)

theorem natToChars_eq_map (n : Nat) : natToChars n = (natDigitsBE n).map digitToChar := rfl

/-! ## Dot-splitting lemmas -/

theorem splitDot_no_dot {l : List Char} (h : '.' ∉ l) : splitDot l = (l, none) := by
  induction l with
  | nil => rfl
  | cons c cs ih =>
    have hc : ¬ c = '.' := fun hc => h (by simp [hc])
    have hcs : '.' ∉ cs := fun hm => h (by simp [hm])
    simp [splitDot, if_neg hc, ih hcs]

theorem splitDot_append {l : List Char} (r : List Char) (h : '.' ∉ l) :
    splitDot (l ++ '.' :: r) = (l, some r) := by
  induction l with
  | nil => simp [splitDot]
  | cons c cs ih =>
    have hc : ¬ c = '.' := fun hc => h (by simp [hc])
    have hcs : '.' ∉ cs := fun hm => h (by simp [hm])
    simp [splitDot, if_neg hc, ih hcs]

theorem dot_not_mem_map {ds : List Nat} (h : ∀ d ∈ ds, d < 10) :
    '.' ∉ ds.map digitToChar := by
  intro hm
  rcases List.mem_map.1 hm with ⟨d, hd, he⟩
  exact absurd he (digitToChar_ne_dot (h d hd))

/-! ## Decimal parser lemmas -/

theorem decFromBody_whole (neg : Bool) {ds : List Nat} (hne : ds ≠ [])
    (h : ∀ d ∈ ds, d < 10) :
    decFromBody neg (ds.map digitToChar) = some ⟨neg, ofDigits ds.reverse, []⟩ := by
  simp [decFromBody, splitDot_no_dot (dot_not_mem_map h), parseNatChars_map hne h]

theorem decFromBody_frac (neg : Bool) {ds fs : List Nat} (hne : ds ≠ [])
    (hfne : fs ≠ []) (h : ∀ d ∈ ds, d < 10) (hf : ∀ d ∈ fs, d < 10) :
    decFromBody neg (ds.map digitToChar ++ '.' :: fs.map digitToChar) =
      some ⟨neg, ofDigits ds.reverse, fs⟩ := by
  have hfe : (fs.map digitToChar).isEmpty = false := by
    cases fs with
    | nil => exact absurd rfl hfne
    | cons a l => rfl
  simp [decFromBody, splitDot_append _ (dot_not_mem_map h), hfe,
    parseNatChars_map hne h, parseDigitList_map hf]

theorem decFromChars_digit_head {d : Nat} (hd : d < 10) (rest : List Char) :
    decFromChars (digitToChar d :: rest) = decFromBody false (digitToChar d :: rest) := by
  simp [decFromChars, if_neg (digitToChar_ne_minus hd)]

theorem decFromChars_decToChars {v : Decimal} (hv : v.Valid) :
    decFromChars (decToChars v) = some v := by
  obtain ⟨neg, ip, frac⟩ := v
  have hfrac : ∀ d ∈ frac, d < 10 := hv
  have hmain : decFromBody neg (natToChars ip ++
      (if (frac : List Nat).isEmpty then [] else '.' :: frac.map digitToChar)) =
      some ⟨neg, ip, frac⟩ := by
    cases frac with
    | nil =>
      show decFromBody neg (natToChars ip ++ []) = some ⟨neg, ip, []⟩
      rw [List.append_nil, natToChars_eq_map,
        decFromBody_whole neg (natDigitsBE_ne_nil ip) (natDigitsBE_lt ip),
        ofDigits_natDigitsBE]
    | cons a l =>
      show decFromBody neg (natToChars ip ++ '.' :: (a :: l).map digitToChar) =
        some ⟨neg, ip, a :: l⟩
      rw [natToChars_eq_map,
        decFromBody_frac neg (natDigitsBE_ne_nil ip) (List.cons_ne_nil a l)
          (natDigitsBE_lt ip) hfrac,
        ofDigits_natDigitsBE]
  cases neg with
  | true =>
    show decFromChars ('-' :: (natToChars ip ++ _)) = _
    simp only [decFromChars, if_pos rfl]
    exact hmain
  | false =>
    show decFromChars ([] ++ (natToChars ip ++ _)) = _
    rw [List.nil_append]
    obtain ⟨d, ds2, hds⟩ : ∃ d ds2, natDigitsBE ip = d :: ds2 := by
      cases hnn : natDigitsBE ip with
      | nil => exact absurd hnn (natDigitsBE_ne_nil ip)
      | cons d ds2 => exact ⟨d, ds2, rfl⟩
    have hd : d < 10 := natDigitsBE_lt ip d (by rw [hds]; simp)
    rw [natToChars_eq_map, hds, List.map_cons, List.cons_append,
      decFromChars_digit_head hd,
      ← List.cons_append, ← List.map_cons, ← hds, ← natToChars_eq_map]
    exact hmain

/-! ## Integer parser lemmas -/

theorem parseNatChars_natToChars (n : Nat) :
    parseNatChars (natToChars n) = some n := by
  rw [natToChars_eq_map, parseNatChars_map (natDigitsBE_ne_nil n) (natDigitsBE_lt n),
    ofDigits_natDigitsBE]

theorem natToChars_head_digit (n : Nat) :
    ∃ d rest, d < 10 ∧ natToChars n = digitToChar d :: rest := by
  obtain ⟨d, ds2, hds⟩ : ∃ d ds2, natDigitsBE n = d :: ds2 := by
    cases hnn : natDigitsBE n with
    | nil => exact absurd hnn (natDigitsBE_ne_nil n)
    | cons d ds2 => exact ⟨d, ds2, rfl⟩
  refine ⟨d, ds2.map digitToChar, natDigitsBE_lt n d (by rw [hds]; simp), ?_⟩
  rw [natToChars_eq_map, hds, List.map_cons]

theorem intFromChars_intToChars (i : Int) : intFromChars (intToChars i) = some i := by
  by_cases hi : i < 0
  · rw [intToChars, if_pos hi]
    simp only [intFromChars, if_pos rfl, parseNatChars_natToChars]
    show some (-(i.natAbs : Int)) = some i
    have : ((i.natAbs : Int)) = -i := by omega
    rw [this, neg_neg]
  · rw [intToChars, if_neg hi]
    obtain ⟨d, rest, hd, hnc⟩ := natToChars_head_digit i.natAbs
    rw [hnc]
    simp only [intFromChars, if_neg (digitToChar_ne_minus hd)]
    rw [← hnc, parseNatChars_natToChars]
    show some ((i.natAbs : Int)) = some i
    have : ((i.natAbs : Int)) = i := by omega
    rw [this]

theorem parseNatChars_isSome_eq (cs : List Char) :
    (parseNatChars cs).isSome =
      (!cs.isEmpty && cs.all fun c => (charToDigit c).isSome) := by
  unfold parseNatChars
  cases he : cs.isEmpty with
  | true => simp
  | false =>
    rw [if_neg (by simp)]
    simp only [Bool.not_false, Bool.true_and]
    rw [← parseDigitList_isSome]
    cases parseDigitList cs <;> rfl

theorem intFromChars_isSome (cs : List Char) :
    (intFromChars cs).isSome = isIntNumeral cs := by
  cases cs with
  | nil => rfl
  | cons c rest =>
    by_cases hc : c = '-'
    · subst hc
      simp only [intFromChars, isIntNumeral, if_pos rfl]
      rw [← parseNatChars_isSome_eq]
      cases parseNatChars rest <;> rfl
    · simp only [intFromChars, isIntNumeral, if_neg hc]
      have heq := parseNatChars_isSome_eq (c :: rest)
      simp only [List.isEmpty_cons, Bool.not_false, Bool.true_and] at heq
      rw [← heq]
      cases parseNatChars (c :: rest) <;> rfl

/-! ## Claim theorems -/

/-- C1: for every representable internal value of each of the four kinds
(signed decimal, unsigned decimal, signed integer, unsigned integer),
parsing the external value produced by serializing it yields the value
again. -/
theorem parse_roundtrips_serialize :
    (∀ v : Decimal, v.Valid →
      DecimalScalar.parse (DecimalScalar.to_value v) = some (.ok v)) ∧
    (∀ v : UnsignedDecimal, v.Valid →
      UnsignedDecimalScalar.parse (UnsignedDecimalScalar.to_value v) = .ok v) ∧
    (∀ i : Int, IntScalar.parse (IntScalar.to_value i) = .ok i) ∧
    (∀ n : Nat, UIntScalar.parse (UIntScalar.to_value n) = .ok n) := by
  refine ⟨fun v hv => ?_, fun v hv => ?_, fun i => ?_, fun n => ?_⟩
  · show some (Decimal.from_str v.to_string) = some (.ok v)
    unfold Decimal.from_str
    rw [show (Decimal.to_string v).data = decToChars v from rfl,
      decFromChars_decToChars hv]
  · have hv2 : Decimal.Valid ⟨false, v.ip, v.frac⟩ := hv
    show UnsignedDecimal.from_str v.to_string = .ok v
    unfold UnsignedDecimal.from_str
    rw [show (UnsignedDecimal.to_string v).data = decToChars ⟨false, v.ip, v.frac⟩ from rfl,
      decFromChars_decToChars hv2]
    rfl
  · show (match intFromChars (intToChars i) with
      | some j => Except.ok j
      | none => Except.error Err.conversionFailure) = Except.ok i
    rw [intFromChars_intToChars]
  · show (match uintFromChars (natToChars n) with
      | some u => Except.ok u
      | none => Except.error Err.conversionFailure) = Except.ok n
    unfold uintFromChars
    rw [parseNatChars_natToChars]

/-- Witness for C1 at the decimal value -100.5 and the unsigned decimal
value 100.5. -/
theorem parse_roundtrips_serialize_witness :
    DecimalScalar.parse (DecimalScalar.to_value ⟨true, 100, [5]⟩) =
      some (.ok ⟨true, 100, [5]⟩) ∧
    UnsignedDecimalScalar.parse (UnsignedDecimalScalar.to_value ⟨100, [5]⟩) =
      .ok ⟨100, [5]⟩ :=
  ⟨parse_roundtrips_serialize.1 ⟨true, 100, [5]⟩ (show ∀ d ∈ [5], d < 10 by decide),
   parse_roundtrips_serialize.2.1 ⟨100, [5]⟩ (show ∀ d ∈ [5], d < 10 by decide)⟩

/-- C2: serialization of each of the four kinds always produces a String
external value, never a native number or any other variant. -/
theorem to_value_always_string :
    (∀ v : Decimal, ∃ s, DecimalScalar.to_value v = .string s) ∧
    (∀ v : UnsignedDecimal, ∃ s, UnsignedDecimalScalar.to_value v = .string s) ∧
    (∀ i : Int, ∃ s, IntScalar.to_value i = .string s) ∧
    (∀ n : Nat, ∃ s, UIntScalar.to_value n = .string s) :=
  ⟨fun _ => ⟨_, rfl⟩, fun _ => ⟨_, rfl⟩, fun _ => ⟨_, rfl⟩, fun _ => ⟨_, rfl⟩⟩

/-- C3: the signed Decimal adapter's Number dispatch: a float extraction
is converted first and fails with ConversionFailure exactly on non-finite
values; otherwise a signed 64-bit extraction converts directly and always
succeeds; otherwise an unsigned 64-bit extraction converts directly and
always succeeds. -/
theorem decimal_number_dispatch :
    ∀ n : Number,
      (∀ f, n.as_f64 = some f →
        DecimalScalar.parse (.number n) = some (Decimal.tryFromF64 f) ∧
        (Decimal.tryFromF64 f = .error .conversionFailure ↔ f.isFinite = false) ∧
        (f.isFinite = true → ∃ d, Decimal.tryFromF64 f = .ok d)) ∧
      (n.as_f64 = none → ∀ i, n.as_i64 = some i →
        DecimalScalar.parse (.number n) = some (.ok (Decimal.ofInt i))) ∧
      (n.as_f64 = none → n.as_i64 = none → ∀ u, n.as_u64 = some u →
        DecimalScalar.parse (.number n) = some (.ok (Decimal.ofNat u))) := by
  intro n
  refine ⟨fun f hf => ⟨?_, ?_, ?_⟩, fun hf i hi => ?_, fun hf hi u hu => ?_⟩
  · simp only [DecimalScalar.parse, DecimalScalar.parseNumber, hf]
  · cases f <;> simp [Decimal.tryFromF64, F64.isFinite]
  · cases f with
    | finite d => exact fun _ => ⟨d, rfl⟩
    | nan => intro h; simp [F64.isFinite] at h
    | inf => intro h; simp [F64.isFinite] at h
    | negInf => intro h; simp [F64.isFinite] at h
  · simp only [DecimalScalar.parse, DecimalScalar.parseNumber, hf, hi]
  · simp only [DecimalScalar.parse, DecimalScalar.parseNumber, hf, hi, hu]

/-- Witness for C3: the three dispatch branches at a NaN float, the
number -1, and the number 2^63 (which exceeds the signed range). -/
theorem decimal_number_dispatch_witness :
    DecimalScalar.parse (.number (.float .nan)) = some (Decimal.tryFromF64 .nan) ∧
    DecimalScalar.parse (.number (.negInt 0)) =
      some (.ok (Decimal.ofInt (-(0 + 1 : Int)))) ∧
    DecimalScalar.parse (.number (.posInt (2 ^ 63))) =
      some (.ok (Decimal.ofNat (2 ^ 63))) :=
  ⟨((decimal_number_dispatch (.float .nan)).1 .nan rfl).1,
   (decimal_number_dispatch (.negInt 0)).2.1 rfl (-(0 + 1 : Int)) rfl,
   (decimal_number_dispatch (.posInt (2 ^ 63))).2.2 rfl (by decide) (2 ^ 63) rfl⟩

/-- C4: every external value whose shape is neither String nor Number is
rejected by all four adapters with an UnexpectedShape failure carrying
the offending value. -/
theorem other_shapes_unexpected :
    ∀ v : Value, v.isOtherShape →
      DecimalScalar.parse v = some (.error (.unexpectedShape v)) ∧
      UnsignedDecimalScalar.parse v = .error (.unexpectedShape v) ∧
      IntScalar.parse v = .error (.unexpectedShape v) ∧
      UIntScalar.parse v = .error (.unexpectedShape v) := by
  intro v hv
  cases v with
  | string s => exact False.elim hv
  | number n => exact False.elim hv
  | boolean b => exact ⟨rfl, rfl, rfl, rfl⟩
  | null => exact ⟨rfl, rfl, rfl, rfl⟩
  | list => exact ⟨rfl, rfl, rfl, rfl⟩
  | object => exact ⟨rfl, rfl, rfl, rfl⟩

/-- Witness for C4 at the null external value. -/
theorem other_shapes_unexpected_witness :
    DecimalScalar.parse .null = some (.error (.unexpectedShape .null)) ∧
    UnsignedDecimalScalar.parse .null = .error (.unexpectedShape .null) ∧
    IntScalar.parse .null = .error (.unexpectedShape .null) ∧
    UIntScalar.parse .null = .error (.unexpectedShape .null) :=
  other_shapes_unexpected .null trivial

/-- Counterexample to C5 as stated: the negative fractional numeral
string "-100.5" (one of the claim's own examples) does not succeed for
the Integer adapter; it fails with ConversionFailure. -/
theorem negative_fractional_fails_for_integer :
    IntScalar.parse (.string "-100.5") = .error .conversionFailure := by decide

/-- C5 (amended): every negative numeral string fails with
ConversionFailure for the UnsignedDecimal and UnsignedInteger adapters
and succeeds for the Decimal adapter; negative whole-number numerals also
succeed for the Integer adapter (producing the negative value), while
negative fractional numerals fail for it with ConversionFailure. -/
theorem negative_numerals_amended :
    ∀ ds : List Nat, ds ≠ [] → (∀ d ∈ ds, d < 10) →
      (UnsignedDecimalScalar.parse (.string (negWholeStr ds)) =
          .error .conversionFailure ∧
        UIntScalar.parse (.string (negWholeStr ds)) = .error .conversionFailure ∧
        DecimalScalar.parse (.string (negWholeStr ds)) =
          some (.ok ⟨true, ofDigits ds.reverse, []⟩) ∧
        IntScalar.parse (.string (negWholeStr ds)) =
          .ok (-(ofDigits ds.reverse : Int))) ∧
      (∀ fs : List Nat, fs ≠ [] → (∀ d ∈ fs, d < 10) →
        UnsignedDecimalScalar.parse (.string (negFracStr ds fs)) =
          .error .conversionFailure ∧
        UIntScalar.parse (.string (negFracStr ds fs)) = .error .conversionFailure ∧
        DecimalScalar.parse (.string (negFracStr ds fs)) =
          some (.ok ⟨true, ofDigits ds.reverse, fs⟩) ∧
        IntScalar.parse (.string (negFracStr ds fs)) = .error .conversionFailure) := by
  intro ds hne h
  have hminus : charToDigit '-' = none := by decide
  constructor
  · have hdec : decFromChars ('-' :: ds.map digitToChar) =
        some ⟨true, ofDigits ds.reverse, []⟩ := by
      simp only [decFromChars, if_pos rfl]
      exact decFromBody_whole true hne h
    have hnat : parseNatChars ('-' :: ds.map digitToChar) = none :=
      parseNatChars_none_of_mem (List.mem_cons_self _ _) hminus
    refine ⟨?_, ?_, ?_, ?_⟩
    · show UnsignedDecimal.from_str (negWholeStr ds) = .error .conversionFailure
      unfold UnsignedDecimal.from_str
      rw [show (negWholeStr ds).data = '-' :: ds.map digitToChar from rfl, hdec]
      rfl
    · show (match uintFromChars (negWholeStr ds).data with
        | some u => Except.ok u
        | none => Except.error Err.conversionFailure) = Except.error Err.conversionFailure
      unfold uintFromChars
      rw [show (negWholeStr ds).data = '-' :: ds.map digitToChar from rfl, hnat]
    · show some (Decimal.from_str (negWholeStr ds)) = _
      unfold Decimal.from_str
      rw [show (negWholeStr ds).data = '-' :: ds.map digitToChar from rfl, hdec]
    · show (match intFromChars (negWholeStr ds).data with
        | some j => Except.ok j
        | none => Except.error Err.conversionFailure) = _
      rw [show (negWholeStr ds).data = '-' :: ds.map digitToChar from rfl]
      simp only [intFromChars, if_pos rfl]
      rw [parseNatChars_map hne h]
      rfl
  · intro fs hfne hf
    have hdec : decFromChars ('-' :: (ds.map digitToChar ++ '.' :: fs.map digitToChar)) =
        some ⟨true, ofDigits ds.reverse, fs⟩ := by
      simp only [decFromChars, if_pos rfl]
      exact decFromBody_frac true hne hfne h hf
    have hdot : charToDigit '.' = none := by decide
    have hnat : parseNatChars (ds.map digitToChar ++ '.' :: fs.map digitToChar) = none :=
      parseNatChars_none_of_mem
        (List.mem_append_right _ (List.mem_cons_self _ _)) hdot
    have hnatm : parseNatChars ('-' :: (ds.map digitToChar ++ '.' :: fs.map digitToChar)) =
        none :=
      parseNatChars_none_of_mem (List.mem_cons_self _ _) hminus
    refine ⟨?_, ?_, ?_, ?_⟩
    · show UnsignedDecimal.from_str (negFracStr ds fs) = .error .conversionFailure
      unfold UnsignedDecimal.from_str
      rw [show (negFracStr ds fs).data =
        '-' :: (ds.map digitToChar ++ '.' :: fs.map digitToChar) from rfl, hdec]
      rfl
    · show (match uintFromChars (negFracStr ds fs).data with
        | some u => Except.ok u
        | none => Except.error Err.conversionFailure) = Except.error Err.conversionFailure
      unfold uintFromChars
      rw [show (negFracStr ds fs).data =
        '-' :: (ds.map digitToChar ++ '.' :: fs.map digitToChar) from rfl, hnatm]
    · show some (Decimal.from_str (negFracStr ds fs)) = _
      unfold Decimal.from_str
      rw [show (negFracStr ds fs).data =
        '-' :: (ds.map digitToChar ++ '.' :: fs.map digitToChar) from rfl, hdec]
    · show (match intFromChars (negFracStr ds fs).data with
        | some j => Except.ok j
        | none => Except.error Err.conversionFailure) = _
      rw [show (negFracStr ds fs).data =
        '-' :: (ds.map digitToChar ++ '.' :: fs.map digitToChar) from rfl]
      simp only [intFromChars, if_pos rfl]
      rw [hnat]
      rfl

/-- Witness for C5 (amended) at the strings "-100" and "-100.5". -/
theorem negative_numerals_amended_witness :
    (UnsignedDecimalScalar.parse (.string (negWholeStr [1, 0, 0])) =
        .error .conversionFailure ∧
      UIntScalar.parse (.string (negWholeStr [1, 0, 0])) = .error .conversionFailure ∧
      DecimalScalar.parse (.string (negWholeStr [1, 0, 0])) =
        some (.ok ⟨true, ofDigits [1, 0, 0].reverse, []⟩) ∧
      IntScalar.parse (.string (negWholeStr [1, 0, 0])) =
        .ok (-(ofDigits [1, 0, 0].reverse : Int))) ∧
    (UnsignedDecimalScalar.parse (.string (negFracStr [1, 0, 0] [5])) =
        .error .conversionFailure ∧
      UIntScalar.parse (.string (negFracStr [1, 0, 0] [5])) = .error .conversionFailure ∧
      DecimalScalar.parse (.string (negFracStr [1, 0, 0] [5])) =
        some (.ok ⟨true, ofDigits [1, 0, 0].reverse, [5]⟩) ∧
      IntScalar.parse (.string (negFracStr [1, 0, 0] [5])) =
        .error .conversionFailure) :=
  ⟨(negative_numerals_amended [1, 0, 0] (by decide) (by decide)).1,
   (negative_numerals_amended [1, 0, 0] (by decide) (by decide)).2 [5]
     (by decide) (by decide)⟩

/-- Counterexample to C6 as stated: the string "-100" contains non-digit
content (the minus sign), yet the Integer adapter accepts it. -/
theorem integer_accepts_minus_sign :
    charToDigit '-' = none ∧ '-' ∈ "-100".data ∧
      IntScalar.parse (.string "-100") = .ok (-100) := by decide

/-- C6 (amended): the Integer adapter's String parse accepts exactly the
optionally-negated base-10 whole-number numerals (an optional leading
minus sign followed by one or more digits); everything else — including
any string with a decimal point — fails with ConversionFailure. -/
theorem integer_string_numerals_amended :
    ∀ s : String,
      (isIntNumeral s.data = false →
        IntScalar.parse (.string s) = .error .conversionFailure) ∧
      (isIntNumeral s.data = true → ∃ i, IntScalar.parse (.string s) = .ok i) := by
  intro s
  constructor
  · intro hnum
    have hiss := intFromChars_isSome s.data
    rw [hnum] at hiss
    have hn : intFromChars s.data = none := by
      cases hif : intFromChars s.data with
      | none => rfl
      | some i => rw [hif] at hiss; simp at hiss
    show (match intFromChars s.data with
      | some j => Except.ok j
      | none => Except.error Err.conversionFailure) = _
    rw [hn]
  · intro hnum
    have hiss := intFromChars_isSome s.data
    rw [hnum] at hiss
    cases hif : intFromChars s.data with
    | none => rw [hif] at hiss; simp at hiss
    | some i =>
      refine ⟨i, ?_⟩
      show (match intFromChars s.data with
        | some j => Except.ok j
        | none => Except.error Err.conversionFailure) = _
      rw [hif]

/-- Witness for C6 (amended): "1.5" is rejected with ConversionFailure
and "-42" is accepted. -/
theorem integer_string_numerals_amended_witness :
    IntScalar.parse (.string "1.5") = .error .conversionFailure ∧
    ∃ i, IntScalar.parse (.string "-42") = .ok i :=
  ⟨(integer_string_numerals_amended "1.5").1 (by decide),
   (integer_string_numerals_amended "-42").2 (by decide)⟩

/-- C7: every fractional numeral string succeeds for the Decimal and
UnsignedDecimal adapters (producing the fractional value) and fails with
ConversionFailure for the Integer and UnsignedInteger adapters. -/
theorem fractional_strings_adapters :
    ∀ ds fs : List Nat, ds ≠ [] → fs ≠ [] →
      (∀ d ∈ ds, d < 10) → (∀ d ∈ fs, d < 10) →
      DecimalScalar.parse (.string (fracStr ds fs)) =
        some (.ok ⟨false, ofDigits ds.reverse, fs⟩) ∧
      UnsignedDecimalScalar.parse (.string (fracStr ds fs)) =
        .ok ⟨ofDigits ds.reverse, fs⟩ ∧
      IntScalar.parse (.string (fracStr ds fs)) = .error .conversionFailure ∧
      UIntScalar.parse (.string (fracStr ds fs)) = .error .conversionFailure := by
  intro ds fs hne hfne h hf
  obtain ⟨d, ds2, hds⟩ : ∃ d ds2, ds = d :: ds2 := by
    cases ds with
    | nil => exact absurd rfl hne
    | cons d ds2 => exact ⟨d, ds2, rfl⟩
  have hd : d < 10 := h d (by rw [hds]; simp)
  have hdec : decFromChars (ds.map digitToChar ++ '.' :: fs.map digitToChar) =
      some ⟨false, ofDigits ds.reverse, fs⟩ := by
    rw [hds, List.map_cons, List.cons_append, decFromChars_digit_head hd,
      ← List.cons_append, ← List.map_cons, ← hds]
    exact decFromBody_frac false hne hfne h hf
  have hdot : charToDigit '.' = none := by decide
  have hnat : parseNatChars (ds.map digitToChar ++ '.' :: fs.map digitToChar) = none :=
    parseNatChars_none_of_mem
      (List.mem_append_right _ (List.mem_cons_self _ _)) hdot
  refine ⟨?_, ?_, ?_, ?_⟩
  · show some (Decimal.from_str (fracStr ds fs)) = _
    unfold Decimal.from_str
    rw [show (fracStr ds fs).data =
      ds.map digitToChar ++ '.' :: fs.map digitToChar from rfl, hdec]
  · show UnsignedDecimal.from_str (fracStr ds fs) = _
    unfold UnsignedDecimal.from_str
    rw [show (fracStr ds fs).data =
      ds.map digitToChar ++ '.' :: fs.map digitToChar from rfl, hdec]
    rfl
  · show (match intFromChars (fracStr ds fs).data with
      | some j => Except.ok j
      | none => Except.error Err.conversionFailure) = _
    rw [show (fracStr ds fs).data =
      ds.map digitToChar ++ '.' :: fs.map digitToChar from rfl]
    rw [hds, List.map_cons, List.cons_append]
    simp only [intFromChars, if_neg (digitToChar_ne_minus hd)]
    rw [← List.cons_append, ← List.map_cons, ← hds, hnat]
  · show (match uintFromChars (fracStr ds fs).data with
      | some u => Except.ok u
      | none => Except.error Err.conversionFailure) = _
    unfold uintFromChars
    rw [show (fracStr ds fs).data =
      ds.map digitToChar ++ '.' :: fs.map digitToChar from rfl, hnat]

/-- Witness for C7 at the string "1.5". -/
theorem fractional_strings_adapters_witness :
    DecimalScalar.parse (.string (fracStr [1] [5])) =
      some (.ok ⟨false, ofDigits [1].reverse, [5]⟩) ∧
    UnsignedDecimalScalar.parse (.string (fracStr [1] [5])) =
      .ok ⟨ofDigits [1].reverse, [5]⟩ ∧
    IntScalar.parse (.string (fracStr [1] [5])) = .error .conversionFailure ∧
    UIntScalar.parse (.string (fracStr [1] [5])) = .error .conversionFailure :=
  fractional_strings_adapters [1] [5] (by decide) (by decide) (by decide) (by decide)

/-- C8: on a Number input that carries neither a float nor an unsigned
64-bit extraction, the UnsignedDecimal adapter fails with UnexpectedShape
carrying the offending value — no conversion of the signed extraction is
attempted; such a number indeed carries a negative signed extraction. -/
theorem unsigned_decimal_negative_number_shape :
    ∀ n : Number, n.as_f64 = none → n.as_u64 = none →
      UnsignedDecimalScalar.parse (.number n) =
        .error (.unexpectedShape (.number n)) ∧
      ∃ i, n.as_i64 = some i ∧ i < 0 := by
  intro n hf hu
  constructor
  · simp only [UnsignedDecimalScalar.parse, UnsignedDecimalScalar.parseNumber, hf, hu]
  · cases n with
    | posInt m => simp [Number.as_u64] at hu
    | negInt m => exact ⟨-(m + 1 : Int), rfl, by omega⟩
    | float f => simp [Number.as_f64] at hf

/-- Witness for C8 at the number -1. -/
theorem unsigned_decimal_negative_number_shape_witness :
    UnsignedDecimalScalar.parse (.number (.negInt 0)) =
      .error (.unexpectedShape (.number (.negInt 0))) ∧
    ∃ i, (Number.negInt 0).as_i64 = some i ∧ i < 0 :=
  unsigned_decimal_negative_number_shape (.negInt 0) rfl rfl

/-- C9: on a Number input where neither the signed nor the unsigned
64-bit extraction succeeds (a non-integral float), the Integer and
UnsignedInteger adapters fail with an explicit UnexpectedShape, not a
panic: both parse functions are total and return this failure value. -/
theorem integer_adapters_float_shape :
    ∀ n : Number, n.as_i64 = none → n.as_u64 = none →
      IntScalar.parse (.number n) = .error (.unexpectedShape (.number n)) ∧
      UIntScalar.parse (.number n) = .error (.unexpectedShape (.number n)) := by
  intro n hi hu
  constructor
  · simp only [IntScalar.parse, IntScalar.parseNumber, hi, hu]
  · simp only [UIntScalar.parse, UIntScalar.parseNumber, hi, hu]

/-- Witness for C9 at a NaN float number. -/
theorem integer_adapters_float_shape_witness :
    IntScalar.parse (.number (.float .nan)) =
      .error (.unexpectedShape (.number (.float .nan))) ∧
    UIntScalar.parse (.number (.float .nan)) =
      .error (.unexpectedShape (.number (.float .nan))) :=
  integer_adapters_float_shape (.float .nan) rfl rfl

/-- C10: every Number admits at least one extraction, and under that
precondition the signed Decimal adapter's unchecked unwrap is
unreachable, so its parse is total (never the panic value `none`); on
full extraction exhaustion the Decimal number branch panics (`none`)
while the other three adapters return a typed failure value. -/
theorem decimal_unwrap_totality :
    (∀ n : Number, n.as_f64.isSome ∨ n.as_i64.isSome ∨ n.as_u64.isSome) ∧
    (∀ (v : Value) (fOpt : Option F64) (iOpt : Option Int) (uOpt : Option Nat),
      fOpt ≠ none ∨ iOpt ≠ none ∨ uOpt ≠ none →
      DecimalScalar.parseNumber v fOpt iOpt uOpt ≠ none) ∧
    (∀ v : Value, DecimalScalar.parse v ≠ none) ∧
    (∀ v : Value, DecimalScalar.parseNumber v none none none = none) ∧
    (∀ v : Value, UnsignedDecimalScalar.parseNumber v none none =
      .error (.unexpectedShape v)) ∧
    (∀ v : Value, IntScalar.parseNumber v none none = .error (.unexpectedShape v)) ∧
    (∀ v : Value, UIntScalar.parseNumber v none none = .error (.unexpectedShape v)) := by
  have hext : ∀ n : Number, n.as_f64.isSome ∨ n.as_i64.isSome ∨ n.as_u64.isSome := by
    intro n
    cases n with
    | posInt m => exact .inr (.inr (by simp [Number.as_u64]))
    | negInt m => exact .inr (.inl (by simp [Number.as_i64]))
    | float f => exact .inl (by simp [Number.as_f64])
  have hnum : ∀ (v : Value) (fOpt : Option F64) (iOpt : Option Int) (uOpt : Option Nat),
      fOpt ≠ none ∨ iOpt ≠ none ∨ uOpt ≠ none →
      DecimalScalar.parseNumber v fOpt iOpt uOpt ≠ none := by
    intro v fOpt iOpt uOpt hor
    cases fOpt with
    | some f => simp [DecimalScalar.parseNumber]
    | none =>
      cases iOpt with
      | some i => simp [DecimalScalar.parseNumber]
      | none =>
        cases uOpt with
        | some u => simp [DecimalScalar.parseNumber]
        | none => rcases hor with h | h | h <;> exact absurd rfl h
  refine ⟨hext, hnum, ?_, fun _ => rfl, fun _ => rfl, fun _ => rfl, fun _ => rfl⟩
  intro v
  cases v with
  | number n =>
    show DecimalScalar.parseNumber (.number n) n.as_f64 n.as_i64 n.as_u64 ≠ none
    refine hnum _ _ _ _ ?_
    rcases hext n with h | h | h
    · exact .inl (by simpa [Option.isSome_iff_ne_none] using h)
    · exact .inr (.inl (by simpa [Option.isSome_iff_ne_none] using h))
    · exact .inr (.inr (by simpa [Option.isSome_iff_ne_none] using h))
  | string s => simp [DecimalScalar.parse]
  | boolean b => simp [DecimalScalar.parse]
  | null => simp [DecimalScalar.parse]
  | list => simp [DecimalScalar.parse]
  | object => simp [DecimalScalar.parse]

/-- Witness for C10: the guarded branch at a concrete extraction triple
and the totality of Decimal parse at a concrete number. -/
theorem decimal_unwrap_totality_witness :
    DecimalScalar.parseNumber .null (some .nan) none none ≠ none ∧
    DecimalScalar.parse (.number (.posInt 0)) ≠ none :=
  ⟨decimal_unwrap_totality.2.1 .null (some .nan) none none (.inl (by simp)),
   decimal_unwrap_totality.2.2.1 (.number (.posInt 0))⟩
